import Mathlib

/-!
Verification of the exposure-set consistency and merge model of
`climada/entity/exposures/base.py` and the id-assignment logic of
`climada/entity/exposures/source.py`, together with spec-modelled
collaborators (`climada.util.checker`, `climada.entity.tag`,
`climada.util.interpolation`) that are not part of the sources at hand.

Numeric array entries are modelled as rationals, identifiers as integers,
coordinates as (lat, lon) pairs of rationals, and the `assigned`
dictionary as an association list from hazard-type strings to integer
arrays.
-/

set_option maxHeartbeats 1000000

namespace Climada

/-- Error conditions raised by validation and merging.  In the Python code
all of them are `ValueError`; the spec taxonomy distinguishes validation
failures from the two merge failures, which correspond to distinct logged
messages in `Exposures.append`. -/
inductive AppendErr where
  | validation
  | refYearMismatch
  | unitMismatch
  deriving DecidableEq, Repr

/-- Modelled from the spec: `climada.entity.tag.Tag` (not under the given
sources).  Per the data model, `tag` is provenance metadata holding source
file name(s) and description(s), multi-valued once sets are merged. -/
@[ext]
structure Tag where
  file_name : List String
  description : List String
  deriving DecidableEq, Repr

/-- Modelled from the spec: `Tag.append` accumulates the provenance of a
merged-in set onto the current one (tag becomes multi-valued on merge). -/
def tagAppend (a b : Tag) : Tag :=
  { file_name := a.file_name ++ b.file_name,
    description := a.description ++ b.description }

/-- The `Exposures` instance state: parallel per-exposure arrays plus the
scalar metadata, mirroring the attributes set in `Exposures.clear`. -/
@[ext]
structure Exposures where
  tag : Tag
  ref_year : Int
  value_unit : String
  coord : List (ℚ × ℚ)
  value : List ℚ
  impact_id : List Int
  id : List Int
  deductible : List ℚ
  cover : List ℚ
  category_id : List Int
  region_id : List Int
  assigned : List (String × List Int)
  deriving DecidableEq, Repr

/-- `np.zeros(n)` as a rational list. -/
def zerosQ (n : Nat) : List ℚ := List.replicate n 0

/-- `np.unique(l).size`: the number of distinct values in `l`. -/
def uniqueSize (l : List Int) : Nat := l.dedup.length

/-- Modelled from the spec: `climada.util.checker.size` — an obligatory
array must have exactly the expected length, else a validation error
(§7: shape violations are fatal validation errors). -/
def checkSizeQ (n : Nat) (l : List ℚ) : Option AppendErr :=
  if l.length = n then none else some .validation

/-- Modelled from the spec: `climada.util.checker.size` for integer
arrays. -/
def checkSizeZ (n : Nat) (l : List Int) : Option AppendErr :=
  if l.length = n then none else some .validation

/-- Modelled from the spec: `climada.util.checker.shape` — `coord` must be
an (n, 2) array.  Rows are (lat, lon) pairs, so only the row count is
checked; the column count is structural. -/
def checkShapeCoord (n : Nat) (l : List (ℚ × ℚ)) : Option AppendErr :=
  if l.length = n then none else some .validation

/-- Modelled from the spec: `climada.util.checker.array_default` — a
defaultable field is backfilled with the given default when empty (§4.3
step 3); when present it is a parallel array and must have length `n`
(§3: all parallel arrays have length N; §7: shape violations are fatal;
§8: after a successful check `len(deductible) == len(value)`). -/
def arrayDefault (n : Nat) (l dflt : List ℚ) : Except AppendErr (List ℚ) :=
  if l.length = 0 then .ok dflt
  else if l.length = n then .ok l
  else .error .validation

/-- Modelled from the spec: `climada.util.checker.array_optional` — an
optional field may be empty (only a warning); when present it must have
length `n` (§3). -/
def arrayOptional (n : Nat) (l : List Int) : Option AppendErr :=
  if l.length = 0 then none
  else if l.length = n then none
  else some .validation

/-- `Exposures._check_obligatories`: `value`, `impact_id` sized against
the exposure count and `coord` shaped (n, 2). -/
def checkObligatories (n : Nat) (e : Exposures) : Option AppendErr :=
  match checkSizeQ n e.value with
  | some er => some er
  | none =>
    match checkSizeZ n e.impact_id with
    | some er => some er
    | none => checkShapeCoord n e.coord

/-- `Exposures._check_optionals`: `category_id`, `region_id` and each
`assigned` entry are optional arrays checked against the exposure
count. -/
def checkOptionals (n : Nat) (e : Exposures) : Option AppendErr :=
  match arrayOptional n e.category_id with
  | some er => some er
  | none =>
    match arrayOptional n e.region_id with
    | some er => some er
    | none =>
      e.assigned.foldl
        (fun acc kv =>
          match acc with
          | some er => some er
          | none => arrayOptional n kv.2) none

/-- `Exposures._check_defaults`: backfill `deductible` with zeros and
`cover` with `value` when empty.  The two assignments are sequential: a
failure on `cover` leaves the already-assigned `deductible` in place.
Returns the error (if any) together with the resulting state. -/
def checkDefaultsRun (n : Nat) (e : Exposures) : Option AppendErr × Exposures :=
  match arrayDefault n e.deductible (zerosQ n) with
  | .error er => (some er, e)
  | .ok d =>
    let e1 : Exposures := { e with deductible := d }
    match arrayDefault n e1.cover e1.value with
    | .error er => (some er, e1)
    | .ok c => (none, { e1 with cover := c })

/-- `Exposures.check`: id uniqueness first (fail fast), then obligatory
sizes, then optional sizes, then default backfill — in the order of the
source.  Returns the error (if any) together with the resulting state
(mutations performed before a failure persist). -/
def checkRun (e : Exposures) : Option AppendErr × Exposures :=
  let n := e.id.length
  if uniqueSize e.id ≠ n then (some .validation, e)
  else
    match checkObligatories n e with
    | some er => (some er, e)
    | none =>
      match checkOptionals n e with
      | some er => (some er, e)
      | none => checkDefaultsRun n e

/-- The order of validation steps asserted by the spec for `check()`:
uniqueness, obligatory shapes, then default backfill, then optional
warnings — i.e. step (3) before step (4).  This definition follows the
spec's words and is compared against `checkRun`, which follows the
source. -/
def checkClaimedRun (e : Exposures) : Option AppendErr × Exposures :=
  let n := e.id.length
  if uniqueSize e.id ≠ n then (some .validation, e)
  else
    match checkObligatories n e with
    | some er => (some er, e)
    | none =>
      match checkDefaultsRun n e with
      | (some er, e1) => (some er, e1)
      | (none, e1) =>
        match checkOptionals n e1 with
        | some er => (some er, e1)
        | none => (none, e1)

/-- `Exposures._append_optional`: concatenate only when both sides are
non-empty, otherwise the result is the empty array. -/
def appendOptional (ini toAdd : List Int) : List Int :=
  if ini.length ≠ 0 ∧ toAdd.length ≠ 0 then ini ++ toAdd else []

/-- Python dict assignment `d[k] = v` on an association list: replace the
value at an existing key in place, else append the new binding. -/
def dictUpdate (d : List (String × List Int)) (k : String) (v : List Int) :
    List (String × List Int) :=
  if (d.lookup k).isSome then
    d.map (fun p => if p.1 = k then (k, v) else p)
  else d ++ [(k, v)]

/-- The `assigned`-merging loop of `Exposures.append`: iterate over the
incoming dict; keys absent from the base dict are inserted unchanged,
keys present in both are combined with `_append_optional`. -/
def mergeAssigned (b i : List (String × List Int)) : List (String × List Int) :=
  i.foldl
    (fun acc kv =>
      match acc.lookup kv.1 with
      | none => dictUpdate acc kv.1 kv.2
      | some cur => dictUpdate acc kv.1 (appendOptional cur kv.2)) b

/-- The value-unit `elif` chain of `Exposures.append`: `none` means the
merge error is raised; `some u` is the reconciled unit. -/
def reconcileUnit (bu iu : String) : Option String :=
  if bu = "NA" ∧ iu ≠ "NA" then some iu
  else if iu = "NA" then some bu
  else if bu ≠ iu then none
  else some bu

/-- The positions of the concatenated id array that `np.delete(np.arange(
self.id.size), indices)` yields, `indices` being the first-occurrence
indices from `np.unique(return_index=True)`: the positions, in increasing
order, whose value already occurred at a smaller position. -/
def dupPositions (l : List Int) : List Nat :=
  (List.range l.length).filter (fun i => decide (l.getD i 0 ∈ l.take i))

/-- The id-renumbering loop at the end of `Exposures.append`: duplicate
positions receive `np.max(id) + 1, np.max(id) + 2, ...` in increasing
position order; every other position keeps its value. -/
def renumberIds (l : List Int) : List Int :=
  (List.range l.length).map
    (fun i => if i ∈ dupPositions l
      then l.maximum.getD 0 + 1 + ((dupPositions l).indexOf i : Int)
      else l.getD i 0)

/-- `Exposures.append`, statement by statement: default-check the base
against its own size, fully validate the incoming set, replace the base
wholesale if it has no exposures, append the tag, enforce matching
reference years, reconcile units, concatenate all parallel arrays
(optional ones under the both-non-empty rule, `assigned` key-wise), and
renumber duplicate ids.  Returns the error (if any) together with the
final state of the base (mutations performed before a failure persist). -/
def appendRun (base inc : Exposures) : Option AppendErr × Exposures :=
  match checkDefaultsRun base.id.length base with
  | (some er, b1) => (some er, b1)
  | (none, b1) =>
    match checkRun inc with
    | (some er, _) => (some er, b1)
    | (none, inc1) =>
      if b1.id.length = 0 then (none, inc1)
      else
        let b2 : Exposures := { b1 with tag := tagAppend b1.tag inc1.tag }
        if b2.ref_year ≠ inc1.ref_year then (some .refYearMismatch, b2)
        else
          match reconcileUnit b2.value_unit inc1.value_unit with
          | none => (some .unitMismatch, b2)
          | some u =>
            let b3 : Exposures :=
              { b2 with
                value_unit := u,
                coord := b2.coord ++ inc1.coord,
                value := b2.value ++ inc1.value,
                impact_id := b2.impact_id ++ inc1.impact_id,
                id := b2.id ++ inc1.id,
                deductible := b2.deductible ++ inc1.deductible,
                cover := b2.cover ++ inc1.cover,
                category_id := appendOptional b2.category_id inc1.category_id,
                region_id := appendOptional b2.region_id inc1.region_id,
                assigned := mergeAssigned b2.assigned inc1.assigned }
            (none, { b3 with id := renumberIds b3.id })

/-- Modelled from the spec: the argmin loop of the Distance/Interpolator
Engine (`climada.util.interpolation`, not under the given sources).  Per
§4.2 a brute-force minimum over all target points is acceptable; ties are
resolved by the lowest target index, so a candidate replaces the current
best only on strictly smaller distance. -/
def argminAux (d : Nat → ℚ) : List Nat → Nat → Nat
  | [], best => best
  | j :: rest, best => argminAux d rest (if d j < d best then j else best)

/-- Modelled from the spec: the nearest target index for one source
point, scanning target indices in increasing order. -/
def nearestOne (dist : (ℚ × ℚ) → (ℚ × ℚ) → ℚ) (p : ℚ × ℚ)
    (target : List (ℚ × ℚ)) : Nat :=
  argminAux (fun j => dist p (target.getD j (0, 0))) (List.range target.length) 0

/-- Modelled from the spec: `nearest_index(source, target, metric)` —
for each source point, the index into `target` of its nearest point
under the given metric (§4.2). -/
def nearestIndex (dist : (ℚ × ℚ) → (ℚ × ℚ) → ℚ)
    (source target : List (ℚ × ℚ)) : List Nat :=
  source.map (fun p => nearestOne dist p target)

/-- `np.linspace(start, stop, num, dtype=int)` with integer endpoints:
`num` evenly spaced samples from `start` to `stop` inclusive, truncated
to integers (the sample values are exact integers in every use below, so
floor equals the C-style truncation of the dtype cast). -/
def npLinspaceInt (start stop : Int) (num : Nat) : List Int :=
  if num = 0 then []
  else if num = 1 then [start]
  else
    (List.range num).map
      (fun i : Nat =>
        Int.floor ((start : ℚ) + ((stop : ℚ) - start) * (i : ℚ) / ((num : ℚ) - 1)))

/-- One data row of the Excel `assets` sheet, as consumed by
`_read_xls_obligatory`. -/
structure XlsRow where
  lat : ℚ
  lon : ℚ
  val : ℚ
  imp : Int
  deriving DecidableEq, Repr

/-- `_read_xls_obligatory`: set `value`, `coord` and `impact_id` from the
sheet columns and `id` to `np.linspace(id.size, id.size + num_exp - 1,
num_exp, dtype=int)` where `num_exp` is the number of rows — the file's
own identifiers are never consulted. -/
def readXlsObligatory (e : Exposures) (rows : List XlsRow) : Exposures :=
  let e1 : Exposures := { e with value := rows.map (fun r => r.val) }
  let e2 : Exposures := { e1 with coord := rows.map (fun r => (r.lat, r.lon)) }
  let e3 : Exposures := { e2 with impact_id := rows.map (fun r => r.imp) }
  { e3 with
    id := npLinspaceInt e3.id.length ((e3.id.length : Int) + rows.length - 1)
            rows.length }

/-- `_read_mat_obligatory`: set `value`, `coord` (lat and lon column
vectors concatenated) and `impact_id` from the MAT data and `id` to
`np.linspace(id.size, id.size + num_exp - 1, num_exp, dtype=int)` where
`num_exp = len(value)` — the file's own identifiers are never
consulted. -/
def readMatObligatory (e : Exposures) (valArr latArr lonArr : List ℚ)
    (impArr : List Int) : Exposures :=
  let e1 : Exposures := { e with value := valArr }
  let e2 : Exposures := { e1 with coord := latArr.zip lonArr }
  let e3 : Exposures := { e2 with impact_id := impArr }
  { e3 with
    id := npLinspaceInt e3.id.length ((e3.id.length : Int) + valArr.length - 1)
            valArr.length }

/-- A valid two-exposure set with an empty (backfillable) `deductible`,
used as a concrete base set. -/
def exA : Exposures :=
  { tag := ⟨["fileA"], ["descA"]⟩, ref_year := 2020, value_unit := "USD",
    coord := [(1, 1), (2, 2)], value := [5, 6], impact_id := [1, 1],
    id := [0, 1], deductible := [], cover := [5, 6], category_id := [],
    region_id := [], assigned := [] }

/-- A valid one-exposure set with `ref_year = 2021`, whose single id
collides with one of `exA`'s. -/
def exB : Exposures :=
  { tag := ⟨["fileB"], ["descB"]⟩, ref_year := 2021, value_unit := "USD",
    coord := [(3, 3)], value := [7], impact_id := [2], id := [1],
    deductible := [0], cover := [7], category_id := [], region_id := [],
    assigned := [] }

/-- `exB` with `exA`'s reference year, so that merging succeeds. -/
def exB2020 : Exposures := { exB with ref_year := 2020 }

/-- A set with an empty id array but a non-empty `deductible`. -/
def exEmptyDed : Exposures :=
  { exA with coord := [], value := [], impact_id := [], id := [],
             deductible := [1], cover := [] }

/-- A set with empty per-exposure arrays throughout. -/
def exEmpty : Exposures :=
  { exA with coord := [], value := [], impact_id := [], id := [],
             deductible := [], cover := [] }

/-- `exA` with a wrong-length `category_id`, so the optional check fails
while the defaultable fields are still backfillable. -/
def exBadCat : Exposures := { exA with category_id := [9] }

/-- A valid one-exposure set with ids disjoint from `exA`'s and an
`assigned` entry. -/
def exC : Exposures :=
  { tag := ⟨["fileC"], ["descC"]⟩, ref_year := 2020, value_unit := "USD",
    coord := [(4, 4)], value := [8], impact_id := [3], id := [7],
    deductible := [2], cover := [8], category_id := [], region_id := [],
    assigned := [("TC", [5])] }

theorem checkDefaultsRun_frame (n : Nat) (e : Exposures) :
    ((checkDefaultsRun n e).2).tag = e.tag ∧
    ((checkDefaultsRun n e).2).ref_year = e.ref_year ∧
    ((checkDefaultsRun n e).2).value_unit = e.value_unit ∧
    ((checkDefaultsRun n e).2).coord = e.coord ∧
    ((checkDefaultsRun n e).2).value = e.value ∧
    ((checkDefaultsRun n e).2).impact_id = e.impact_id ∧
    ((checkDefaultsRun n e).2).id = e.id ∧
    ((checkDefaultsRun n e).2).category_id = e.category_id ∧
    ((checkDefaultsRun n e).2).region_id = e.region_id ∧
    ((checkDefaultsRun n e).2).assigned = e.assigned := by
  unfold checkDefaultsRun
  rcases h1 : arrayDefault n e.deductible (zerosQ n) with er | d
  · simp
  · rcases h2 : arrayDefault n e.cover e.value with er | c <;> simp [h2]

theorem checkRun_frame (e : Exposures) :
    ((checkRun e).2).tag = e.tag ∧
    ((checkRun e).2).ref_year = e.ref_year ∧
    ((checkRun e).2).value_unit = e.value_unit ∧
    ((checkRun e).2).coord = e.coord ∧
    ((checkRun e).2).value = e.value ∧
    ((checkRun e).2).impact_id = e.impact_id ∧
    ((checkRun e).2).id = e.id ∧
    ((checkRun e).2).category_id = e.category_id ∧
    ((checkRun e).2).region_id = e.region_id ∧
    ((checkRun e).2).assigned = e.assigned := by
  unfold checkRun
  by_cases hu : uniqueSize e.id ≠ e.id.length
  · simp [hu]
  · rcases ho : checkObligatories e.id.length e with _ | er
    · rcases hp : checkOptionals e.id.length e with _ | er
      · simpa [hu, ho, hp] using checkDefaultsRun_frame e.id.length e
      · simp [hu, ho, hp]
    · simp [hu, ho]

theorem checkSizeQ_ok (n : Nat) (l : List ℚ) (h : checkSizeQ n l = none) :
    l.length = n := by
  unfold checkSizeQ at h
  by_cases hl : l.length = n
  · exact hl
  · simp [hl] at h

theorem checkSizeZ_ok (n : Nat) (l : List Int) (h : checkSizeZ n l = none) :
    l.length = n := by
  unfold checkSizeZ at h
  by_cases hl : l.length = n
  · exact hl
  · simp [hl] at h

theorem checkShapeCoord_ok (n : Nat) (l : List (ℚ × ℚ))
    (h : checkShapeCoord n l = none) : l.length = n := by
  unfold checkShapeCoord at h
  by_cases hl : l.length = n
  · exact hl
  · simp [hl] at h

theorem checkObligatories_ok (n : Nat) (e : Exposures)
    (h : checkObligatories n e = none) :
    e.value.length = n ∧ e.impact_id.length = n ∧ e.coord.length = n := by
  unfold checkObligatories at h
  rcases h1 : checkSizeQ n e.value with _ | er
  · rcases h2 : checkSizeZ n e.impact_id with _ | er
    · rw [h1, h2] at h
      exact ⟨checkSizeQ_ok n _ h1, checkSizeZ_ok n _ h2, checkShapeCoord_ok n _ h⟩
    · rw [h1, h2] at h; simp at h
  · rw [h1] at h; simp at h

theorem arrayDefault_ok (n : Nat) (l dflt r : List ℚ)
    (h : arrayDefault n l dflt = .ok r) :
    (l = [] ∧ r = dflt) ∨ (l ≠ [] ∧ l.length = n ∧ r = l) := by
  unfold arrayDefault at h
  split_ifs at h with h0 hn
  · left
    injection h with h
    exact ⟨List.length_eq_zero.mp h0, h.symm⟩
  · right
    injection h with h
    exact ⟨fun he => h0 (by simp [he]), hn, h.symm⟩

theorem checkDefaultsRun_ok (n : Nat) (e : Exposures)
    (h : (checkDefaultsRun n e).1 = none) :
    ((checkDefaultsRun n e).2).deductible
        = (if e.deductible = [] then zerosQ n else e.deductible) ∧
    ((checkDefaultsRun n e).2).cover
        = (if e.cover = [] then e.value else e.cover) ∧
    ((checkDefaultsRun n e).2).deductible.length = n ∧
    ((checkDefaultsRun n e).2).cover.length
        = (if e.cover = [] then e.value.length else n) := by
  unfold checkDefaultsRun at h ⊢
  rcases h1 : arrayDefault n e.deductible (zerosQ n) with er | d
  · simp [h1] at h
  · rcases h2 : arrayDefault n e.cover e.value with er | c
    · simp [h1, h2] at h
    · rcases arrayDefault_ok n e.deductible (zerosQ n) d h1 with ⟨hd0, hdr⟩ | ⟨hd0, hdn, hdr⟩
      · rcases arrayDefault_ok n e.cover e.value c h2 with ⟨hc0, hcr⟩ | ⟨hc0, hcn, hcr⟩
        · simp only [h1, h2]
          simp [hd0, hc0, hdr, hcr, zerosQ]
        · simp only [h1, h2]
          simp [hd0, hc0, hdr, hcr, zerosQ, hcn]
      · rcases arrayDefault_ok n e.cover e.value c h2 with ⟨hc0, hcr⟩ | ⟨hc0, hcn, hcr⟩
        · simp only [h1, h2]
          simp [hd0, hc0, hdr, hcr, hdn]
        · simp only [h1, h2]
          simp [hd0, hc0, hdr, hcr, hdn, hcn]

theorem checkRun_ok_cases (e : Exposures) (h : (checkRun e).1 = none) :
    uniqueSize e.id = e.id.length ∧
    checkObligatories e.id.length e = none ∧
    checkOptionals e.id.length e = none ∧
    checkRun e = checkDefaultsRun e.id.length e ∧
    (checkDefaultsRun e.id.length e).1 = none := by
  by_cases hu : uniqueSize e.id ≠ e.id.length
  · have hc : checkRun e = (some .validation, e) := by unfold checkRun; simp [hu]
    rw [hc] at h; simp at h
  · push_neg at hu
    rcases ho : checkObligatories e.id.length e with _ | er
    · rcases hp : checkOptionals e.id.length e with _ | er
      · have hc : checkRun e = checkDefaultsRun e.id.length e := by
          unfold checkRun; simp [hu, ho, hp]
        exact ⟨hu, rfl, rfl, hc, by rw [← hc]; exact h⟩
      · have hc : checkRun e = (some er, e) := by unfold checkRun; simp [hu, ho, hp]
        rw [hc] at h; simp at h
    · have hc : checkRun e = (some er, e) := by unfold checkRun; simp [hu, ho]
      rw [hc] at h; simp at h

theorem appendRun_ok_fields (base inc merged : Exposures)
    (hne : base.id ≠ []) (h : appendRun base inc = (none, merged)) :
    (checkDefaultsRun base.id.length base).1 = none ∧
    (checkRun inc).1 = none ∧
    base.ref_year = inc.ref_year ∧
    merged.id = renumberIds (base.id ++ inc.id) ∧
    merged.value = base.value ++ inc.value ∧
    merged.coord = base.coord ++ inc.coord ∧
    merged.impact_id = base.impact_id ++ inc.impact_id ∧
    merged.deductible
      = (checkDefaultsRun base.id.length base).2.deductible
          ++ (checkRun inc).2.deductible ∧
    merged.cover
      = (checkDefaultsRun base.id.length base).2.cover ++ (checkRun inc).2.cover ∧
    merged.category_id = appendOptional base.category_id inc.category_id ∧
    merged.region_id = appendOptional base.region_id inc.region_id ∧
    merged.assigned = mergeAssigned base.assigned inc.assigned ∧
    merged.tag = tagAppend base.tag inc.tag ∧
    ∃ u, reconcileUnit base.value_unit inc.value_unit = some u ∧
      merged.value_unit = u := by
  obtain ⟨hft, hfr, hfu, hfco, hfv, hfi, hfid, hfcat, hfreg, hfass⟩ :=
    checkDefaultsRun_frame base.id.length base
  obtain ⟨hgt, hgr, hgu, hgco, hgv, hgi, hgid, hgcat, hgreg, hgass⟩ :=
    checkRun_frame inc
  unfold appendRun at h
  split at h
  next er b1 heq => exact absurd h (by simp)
  next b1 heq =>
    simp only [heq] at hft hfr hfu hfco hfv hfi hfid hfcat hfreg hfass
    split at h
    next er inc1 heq2 => exact absurd h (by simp)
    next inc1 heq2 =>
      simp only [heq2] at hgt hgr hgu hgco hgv hgi hgid hgcat hgreg hgass
      split at h
      next hzero =>
        rw [hfid] at hzero
        exact absurd (List.length_eq_zero.mp hzero) hne
      next hzero =>
        simp only [ne_eq] at h
        split at h
        next hy => exact absurd h (by simp)
        next hy =>
          push_neg at hy
          split at h
          next hru => exact absurd h (by simp)
          next u hru =>
            injection h with h1 hm
            rw [← hm]
            refine ⟨by rw [heq], by rw [heq2], ?_, ?_, ?_, ?_, ?_, ?_, ?_,
              ?_, ?_, ?_, ?_, ?_⟩
            · rw [← hfr, ← hgr]
              simpa using hy
            · simp [hfid, hgid]
            · simp [hfv, hgv]
            · simp [hfco, hgco]
            · simp [hfi, hgi]
            · simp [heq, heq2]
            · simp [heq, heq2]
            · simp [hfcat, hgcat]
            · simp [hfreg, hgreg]
            · simp [hfass, hgass]
            · simp [hft, hgt]
            · refine ⟨u, ?_, by simp⟩
              rw [← hfu, ← hgu]
              simpa using hru

theorem appendRun_eval_unit (base inc : Exposures)
    (hd : (checkDefaultsRun base.id.length base).1 = none)
    (hc : (checkRun inc).1 = none)
    (hne : base.id ≠ [])
    (hy : base.ref_year = inc.ref_year) :
    (reconcileUnit base.value_unit inc.value_unit = none →
       (appendRun base inc).1 = some .unitMismatch) ∧
    (∀ u, reconcileUnit base.value_unit inc.value_unit = some u →
       (appendRun base inc).1 = none ∧ (appendRun base inc).2.value_unit = u) := by
  obtain ⟨hft, hfr, hfu, hfco, hfv, hfi, hfid, hfcat, hfreg, hfass⟩ :=
    checkDefaultsRun_frame base.id.length base
  obtain ⟨hgt, hgr, hgu, hgco, hgv, hgi, hgid, hgcat, hgreg, hgass⟩ :=
    checkRun_frame inc
  rcases hh : appendRun base inc with ⟨o, res⟩
  unfold appendRun at hh
  split at hh
  next er b1 heq => rw [heq] at hd; simp at hd
  next b1 heq =>
    simp only [heq] at hft hfr hfu hfid
    split at hh
    next er inc1 heq2 => rw [heq2] at hc; simp at hc
    next inc1 heq2 =>
      simp only [heq2] at hgt hgr hgu hgid
      split at hh
      next hzero =>
        rw [hfid] at hzero
        exact absurd (List.length_eq_zero.mp hzero) hne
      next hzero =>
        simp only [ne_eq] at hh
        split at hh
        next hy2 =>
          exact absurd (hfr.trans (hy.trans hgr.symm)) hy2
        next hy2 =>
          split at hh
          next hru =>
            injection hh with hh1 hh2
            constructor
            · intro _
              rw [← hh1]
            · intro u hu
              rw [← hfu, ← hgu] at hu
              rw [hru] at hu
              exact absurd hu (by simp)
          next u hru =>
            injection hh with hh1 hh2
            constructor
            · intro hn
              rw [← hfu, ← hgu] at hn
              rw [hru] at hn
              exact absurd hn (by simp)
            · intro u' hu
              rw [← hfu, ← hgu] at hu
              rw [hru] at hu
              injection hu with hu
              constructor
              · rw [← hh1]
              · rw [← hh2, ← hu]

theorem uniqueSize_eq_length_iff (l : List Int) :
    uniqueSize l = l.length ↔ l.Nodup := by
  unfold uniqueSize
  constructor
  · intro h
    exact List.dedup_eq_self.mp ((List.dedup_sublist l).eq_of_length h)
  · intro h
    rw [h.dedup]

theorem dupPositions_spec (l : List Int) (i : Nat) :
    i ∈ dupPositions l ↔ i < l.length ∧ l.getD i 0 ∈ l.take i := by
  unfold dupPositions
  simp [List.mem_filter, List.mem_range]

theorem dupPositions_nodup (l : List Int) : (dupPositions l).Nodup :=
  List.Nodup.filter _ (List.nodup_range _)

theorem dupPositions_sorted (l : List Int) :
    (dupPositions l).Pairwise (· < ·) :=
  List.Pairwise.filter _ (List.pairwise_lt_range _)

theorem dupPositions_lt (l : List Int) (i : Nat) (h : i ∈ dupPositions l) :
    i < l.length :=
  ((dupPositions_spec l i).mp h).1

theorem renumberIds_length (l : List Int) :
    (renumberIds l).length = l.length := by
  unfold renumberIds
  simp

theorem renumberIds_getD_eq (l : List Int) (i : Nat) (hi : i < l.length) :
    (renumberIds l).getD i 0 =
      if i ∈ dupPositions l
      then l.maximum.getD 0 + 1 + ((dupPositions l).indexOf i : Int)
      else l.getD i 0 := by
  unfold renumberIds
  have h1 : i < ((List.range l.length).map
      (fun i => if i ∈ dupPositions l
        then l.maximum.getD 0 + 1 + ((dupPositions l).indexOf i : Int)
        else l.getD i 0)).length := by
    simpa using hi
  rw [List.getD_eq_getElem _ _ h1, List.getElem_map, List.getElem_range]

theorem renumberIds_not_dup (l : List Int) (i : Nat) (hi : i < l.length)
    (h : i ∉ dupPositions l) : (renumberIds l).getD i 0 = l.getD i 0 := by
  rw [renumberIds_getD_eq l i hi, if_neg h]

theorem renumberIds_dup_val (l : List Int) (k : Nat)
    (hk : k < (dupPositions l).length) :
    (renumberIds l).getD ((dupPositions l).getD k 0) 0
      = l.maximum.getD 0 + 1 + k := by
  rw [List.getD_eq_getElem _ _ hk]
  have hmem : (dupPositions l)[k] ∈ dupPositions l := List.getElem_mem hk
  have hlt : (dupPositions l)[k] < l.length := dupPositions_lt l _ hmem
  rw [renumberIds_getD_eq l _ hlt, if_pos hmem]
  have hidx := List.indexOf_getElem (dupPositions_nodup l) k hk
  rw [hidx]

theorem getD_le_maximum (l : List Int) (j : Nat) (hj : j < l.length) :
    l.getD j 0 ≤ l.maximum.getD 0 := by
  have hmem : l.getD j 0 ∈ l := by
    rw [List.getD_eq_getElem _ _ hj]
    exact List.getElem_mem hj
  have h1 := List.le_maximum_of_mem' hmem
  rcases hmax : l.maximum with _ | M
  · rw [hmax] at h1
    exact absurd h1 (by simp)
  · rw [hmax] at h1
    rw [WithBot.some_eq_coe] at h1
    simp only [Option.getD_some]
    exact_mod_cast h1

theorem mem_take_of_getD_eq (l : List Int) (i j : Nat) (hi : i < l.length)
    (hij : i < j) (hf : l.getD i 0 = l.getD j 0) : l.getD j 0 ∈ l.take j := by
  have hlt : i < (l.take j).length := by
    simp only [List.length_take]
    omega
  have hmem := List.getElem_mem hlt
  rw [List.getElem_take] at hmem
  rw [← List.getD_eq_getElem l 0 hi, hf] at hmem
  exact hmem

theorem renumberIds_nodup (l : List Int) : (renumberIds l).Nodup := by
  unfold renumberIds
  refine List.Nodup.map_on ?_ (List.nodup_range _)
  intro i hi j hj hf
  rw [List.mem_range] at hi hj
  by_cases hdi : i ∈ dupPositions l <;> by_cases hdj : j ∈ dupPositions l
  · rw [if_pos hdi, if_pos hdj] at hf
    have hidx : (dupPositions l).indexOf i = (dupPositions l).indexOf j := by
      omega
    exact (List.indexOf_inj hdi hdj).mp hidx
  · rw [if_pos hdi, if_neg hdj] at hf
    have h1 := getD_le_maximum l j hj
    omega
  · rw [if_neg hdi, if_pos hdj] at hf
    have h1 := getD_le_maximum l i hi
    omega
  · rw [if_neg hdi, if_neg hdj] at hf
    by_contra hne
    rcases Nat.lt_or_ge i j with hij | hij
    · exact hdj ((dupPositions_spec l j).mpr
        ⟨hj, mem_take_of_getD_eq l i j hi hij hf⟩)
    · have hji : j < i := by omega
      exact hdi ((dupPositions_spec l i).mpr
        ⟨hi, mem_take_of_getD_eq l j i hj hji hf.symm⟩)

theorem map_getD_range (l : List Int) :
    (List.range l.length).map (fun i => l.getD i 0) = l := by
  apply List.ext_getElem (by simp)
  intro n h1 h2
  rw [List.getElem_map, List.getElem_range, List.getD_eq_getElem l 0 h2]

theorem renumberIds_eq_self (l : List Int) (h : dupPositions l = []) :
    renumberIds l = l := by
  unfold renumberIds
  rw [h]
  simpa using map_getD_range l

theorem not_dup_of_append_left (b c : List Int) (hb : b.Nodup) (i : Nat)
    (hi : i < b.length) : i ∉ dupPositions (b ++ c) := by
  intro hmem
  obtain ⟨hlen, htake⟩ := (dupPositions_spec _ _).mp hmem
  rw [List.take_append_of_le_length (le_of_lt hi)] at htake
  rw [List.getD_append b c 0 i hi] at htake
  obtain ⟨n, hn, hval⟩ := List.getElem_of_mem htake
  have hni : n < i := by
    simp only [List.length_take] at hn
    omega
  have hnb : n < b.length := by omega
  rw [List.getElem_take, List.getD_eq_getElem b 0 hi] at hval
  have := (hb.getElem_inj_iff).mp hval
  omega

theorem dupPositions_disjoint_nil (b c : List Int) (hb : b.Nodup)
    (hc : c.Nodup) (hdisj : ∀ x ∈ b, x ∉ c) : dupPositions (b ++ c) = [] := by
  rw [List.eq_nil_iff_forall_not_mem]
  intro i hmem
  by_cases hib : i < b.length
  · exact not_dup_of_append_left b c hb i hib hmem
  · push_neg at hib
    obtain ⟨hlen, htake⟩ := (dupPositions_spec _ _).mp hmem
    rw [List.length_append] at hlen
    have hct : i - b.length < c.length := by omega
    rw [List.getD_append_right b c 0 i hib] at htake
    rw [List.take_append_eq_append_take, List.take_of_length_le hib] at htake
    rcases List.mem_append.mp htake with hmb | hmc
    · have hmemc : c.getD (i - b.length) 0 ∈ c := by
        rw [List.getD_eq_getElem _ _ hct]
        exact List.getElem_mem hct
      exact hdisj _ hmb hmemc
    · obtain ⟨n, hn, hval⟩ := List.getElem_of_mem hmc
      have hni : n < i - b.length := by
        simp only [List.length_take] at hn
        omega
      have hnc : n < c.length := by omega
      rw [List.getElem_take, List.getD_eq_getElem c 0 hct] at hval
      have := (hc.getElem_inj_iff).mp hval
      omega

theorem lookup_cons_eq (a : String) (b : List Int)
    (es : List (String × List Int)) (h : String) :
    List.lookup h ((a, b) :: es) = if h = a then some b else List.lookup h es := by
  rw [List.lookup_cons]
  by_cases he : h = a
  · have hb : (h == a) = true := beq_iff_eq.mpr he
    rw [hb, if_pos he]
  · have hb : (h == a) = false := beq_eq_false_iff_ne.mpr he
    rw [hb, if_neg he]

theorem lookup_eq_none_of_not_mem (d : List (String × List Int)) (k : String)
    (h : k ∉ d.map Prod.fst) : d.lookup k = none := by
  induction d with
  | nil => simp
  | cons p rest ih =>
    rcases p with ⟨a, b⟩
    simp only [List.map_cons, List.mem_cons, not_or] at h
    rw [lookup_cons_eq, if_neg h.1]
    exact ih h.2

theorem lookup_map_update_ne (d : List (String × List Int)) (k : String)
    (v : List Int) (h : String) (hne : h ≠ k) :
    (d.map (fun p => if p.1 = k then (k, v) else p)).lookup h = d.lookup h := by
  induction d with
  | nil => simp
  | cons p rest ih =>
    rcases p with ⟨a, b⟩
    by_cases hak : a = k
    · have hmap : (((a, b) :: rest).map (fun p => if p.1 = k then (k, v) else p))
          = (k, v) :: rest.map (fun p => if p.1 = k then (k, v) else p) := by
        simp [hak]
      rw [hmap, lookup_cons_eq, lookup_cons_eq, if_neg hne, hak, if_neg hne]
      exact ih
    · have hmap : (((a, b) :: rest).map (fun p => if p.1 = k then (k, v) else p))
          = (a, b) :: rest.map (fun p => if p.1 = k then (k, v) else p) := by
        simp [hak]
      rw [hmap, lookup_cons_eq, lookup_cons_eq]
      by_cases hha : h = a
      · rw [if_pos hha, if_pos hha]
      · rw [if_neg hha, if_neg hha]
        exact ih

theorem lookup_map_update_self (d : List (String × List Int)) (k : String)
    (v : List Int) (hs : (d.lookup k).isSome) :
    (d.map (fun p => if p.1 = k then (k, v) else p)).lookup k = some v := by
  induction d with
  | nil => simp at hs
  | cons p rest ih =>
    rcases p with ⟨a, b⟩
    by_cases hak : a = k
    · have hmap : (((a, b) :: rest).map (fun p => if p.1 = k then (k, v) else p))
          = (k, v) :: rest.map (fun p => if p.1 = k then (k, v) else p) := by
        simp [hak]
      rw [hmap, lookup_cons_eq, if_pos rfl]
    · have hmap : (((a, b) :: rest).map (fun p => if p.1 = k then (k, v) else p))
          = (a, b) :: rest.map (fun p => if p.1 = k then (k, v) else p) := by
        simp [hak]
      have hka : ¬ k = a := fun hh => hak hh.symm
      rw [hmap, lookup_cons_eq, if_neg hka]
      refine ih ?_
      rw [lookup_cons_eq, if_neg hka] at hs
      exact hs

theorem lookup_append_single (d : List (String × List Int)) (k : String)
    (v : List Int) (h : String) :
    (d ++ [(k, v)]).lookup h =
      match d.lookup h with
      | some w => some w
      | none => if h = k then some v else none := by
  induction d with
  | nil => simp [lookup_cons_eq]
  | cons p rest ih =>
    rcases p with ⟨a, b⟩
    rw [List.cons_append, lookup_cons_eq, lookup_cons_eq]
    by_cases hha : h = a
    · simp [hha]
    · rw [if_neg hha, if_neg hha]
      exact ih

theorem lookup_dictUpdate (d : List (String × List Int)) (k : String)
    (v : List Int) (h : String) :
    (dictUpdate d k v).lookup h = if h = k then some v else d.lookup h := by
  unfold dictUpdate
  by_cases hs : (d.lookup k).isSome
  · rw [if_pos hs]
    by_cases hha : h = k
    · subst hha
      rw [if_pos rfl]
      exact lookup_map_update_self d h v hs
    · rw [if_neg hha]
      exact lookup_map_update_ne d k v h hha
  · rw [if_neg hs]
    rw [lookup_append_single]
    have hn : d.lookup k = none := by
      rcases hd : d.lookup k with _ | w
      · rfl
      · rw [hd] at hs
        simp at hs
    by_cases hha : h = k
    · subst hha
      rw [hn]
    · rw [if_neg hha]
      rcases hd : d.lookup h with _ | w <;> simp [hha]

theorem lookup_mergeAssigned (b i : List (String × List Int))
    (hkeys : (i.map Prod.fst).Nodup) (h : String) :
    (mergeAssigned b i).lookup h =
      match b.lookup h, i.lookup h with
      | none, none => none
      | some a, none => some a
      | none, some x => some x
      | some a, some x => some (appendOptional a x) := by
  induction i generalizing b with
  | nil =>
    rcases hb : b.lookup h with _ | w <;> simp [mergeAssigned, hb]
  | cons kv rest ih =>
    rcases kv with ⟨hz, arr⟩
    simp only [List.map_cons, List.nodup_cons] at hkeys
    obtain ⟨hznr, hkr⟩ := hkeys
    rcases hbl : b.lookup hz with _ | cur
    · have hstep : mergeAssigned b ((hz, arr) :: rest)
          = mergeAssigned (dictUpdate b hz arr) rest := by
        have h0 : mergeAssigned b ((hz, arr) :: rest)
            = mergeAssigned
                (match b.lookup hz with
                 | none => dictUpdate b hz arr
                 | some cur => dictUpdate b hz (appendOptional cur arr)) rest := rfl
        rw [h0, hbl]
      rw [hstep, ih _ hkr, lookup_dictUpdate]
      by_cases hhz : h = hz
      · subst hhz
        have hrn : rest.lookup h = none := lookup_eq_none_of_not_mem rest h hznr
        rw [if_pos rfl, hbl, hrn, lookup_cons_eq, if_pos rfl]
      · rw [if_neg hhz, lookup_cons_eq, if_neg hhz]
    · have hstep : mergeAssigned b ((hz, arr) :: rest)
          = mergeAssigned (dictUpdate b hz (appendOptional cur arr)) rest := by
        have h0 : mergeAssigned b ((hz, arr) :: rest)
            = mergeAssigned
                (match b.lookup hz with
                 | none => dictUpdate b hz arr
                 | some cur => dictUpdate b hz (appendOptional cur arr)) rest := rfl
        rw [h0, hbl]
      rw [hstep, ih _ hkr, lookup_dictUpdate]
      by_cases hhz : h = hz
      · subst hhz
        have hrn : rest.lookup h = none := lookup_eq_none_of_not_mem rest h hznr
        rw [if_pos rfl, hbl, hrn, lookup_cons_eq, if_pos rfl]
      · rw [if_neg hhz, lookup_cons_eq, if_neg hhz]

theorem argminAux_inv (d : Nat → ℚ) (k : Nat) : ∀ (s b : Nat),
    b < s → (∀ j, j < s → d b ≤ d j) → (∀ j, j < b → d b < d j) →
    argminAux d (List.range' s k) b < s + k ∧
    (∀ j, j < s + k → d (argminAux d (List.range' s k) b) ≤ d j) ∧
    (∀ j, j < argminAux d (List.range' s k) b →
      d (argminAux d (List.range' s k) b) < d j) := by
  induction k with
  | zero =>
    intro s b hb hmin hlow
    simpa using ⟨hb, hmin, hlow⟩
  | succ k ih =>
    intro s b hb hmin hlow
    rw [List.range'_succ]
    simp only [argminAux]
    by_cases hds : d s < d b
    · rw [if_pos hds]
      obtain ⟨h1, h2, h3⟩ := ih (s + 1) s (Nat.lt_succ_self s)
        (fun j hj => by
          rcases Nat.lt_succ_iff_lt_or_eq.mp hj with hj' | hj'
          · exact le_of_lt (lt_of_lt_of_le hds (hmin j hj'))
          · subst hj'
            exact le_rfl)
        (fun j hj => lt_of_lt_of_le hds (hmin j hj))
      exact ⟨by omega, fun j hj => h2 j (by omega), h3⟩
    · rw [if_neg hds]
      push_neg at hds
      obtain ⟨h1, h2, h3⟩ := ih (s + 1) b (by omega)
        (fun j hj => by
          rcases Nat.lt_succ_iff_lt_or_eq.mp hj with hj' | hj'
          · exact hmin j hj'
          · subst hj'
            exact hds)
        hlow
      exact ⟨by omega, fun j hj => h2 j (by omega), h3⟩

theorem nearestOne_spec (dist : (ℚ × ℚ) → (ℚ × ℚ) → ℚ) (p : ℚ × ℚ)
    (target : List (ℚ × ℚ)) (hne : target ≠ []) :
    nearestOne dist p target < target.length ∧
    (∀ j, j < target.length →
      dist p (target.getD (nearestOne dist p target) (0, 0))
        ≤ dist p (target.getD j (0, 0))) ∧
    (∀ j, j < nearestOne dist p target →
      dist p (target.getD (nearestOne dist p target) (0, 0))
        < dist p (target.getD j (0, 0))) := by
  unfold nearestOne
  rcases hn : target.length with _ | m
  · rw [List.length_eq_zero] at hn
    exact absurd hn hne
  · have hr : List.range (m + 1) = 0 :: List.range' 1 m := by
      rw [List.range_eq_range', List.range'_succ]
    rw [hr]
    simp only [argminAux, ite_self]
    obtain ⟨h1, h2, h3⟩ :=
      argminAux_inv (fun j => dist p (target.getD j (0, 0))) m 1 0 (by omega)
        (fun j hj => by
          have hj0 : j = 0 := by omega
          subst hj0
          exact le_rfl)
        (fun j hj => absurd hj (by omega))
    refine ⟨by omega, fun j hj => ?_, fun j hj => ?_⟩
    · simpa using h2 j (by omega)
    · simpa using h3 j hj

theorem npLinspaceInt_from_zero (N : Nat) :
    npLinspaceInt 0 ((N : Int) - 1) N = (List.range N).map Int.ofNat := by
  unfold npLinspaceInt
  rcases N with _ | m
  · simp
  · rcases m with _ | m'
    · decide
    · rw [if_neg (by omega), if_neg (by omega)]
      apply List.ext_getElem (by simp)
      intro n h1 h2
      rw [List.getElem_map, List.getElem_range, List.getElem_map,
        List.getElem_range]
      have hstop : (((m' + 1 + 1 : Nat) : Int) - 1)
          = ((m' + 1 : Nat) : Int) := by
        push_cast
        ring
      rw [hstop]
      have hden : ((m' + 1 + 1 : Nat) : ℚ) - 1 = ((m' + 1 : Nat) : ℚ) := by
        push_cast
        ring
      rw [hden]
      have hql : (((0 : Int) : ℚ)
            + ((((m' + 1 : Nat) : Int) : ℚ) - ((0 : Int) : ℚ)) * (n : ℚ)
              / ((m' + 1 : Nat) : ℚ)) = (n : ℚ) := by
        have hpos : ((m' + 1 : Nat) : ℚ) ≠ 0 := by positivity
        push_cast
        field_simp
      rw [hql, Int.floor_natCast]
      rfl

/-- C1, counterexample: merging `exA` (ref_year 2020, empty deductible)
with `exB` (ref_year 2021) fails with the reference-year merge error as
the claim states, but it does NOT leave the base unmodified: the failed
call has backfilled `exA`'s empty deductible and appended `exB`'s tag. -/
theorem C1_counterexample :
    (appendRun exA exB).1 = some .refYearMismatch ∧
    (appendRun exA exB).2.deductible ≠ exA.deductible ∧
    (appendRun exA exB).2.tag ≠ exA.tag := by decide

/-- C1 (amended): for every non-empty base and incoming set with
differing reference years (both passing their pre-merge checks), append
fails with the reference-year merge error and leaves every field of the
base unmodified EXCEPT that the incoming tag has been appended to the
base tag and the base's defaultable fields have been backfilled by the
pre-merge default check. -/
theorem C1_refyear_failure_mutations (base inc : Exposures)
    (hne : base.id ≠ [])
    (hd : (checkDefaultsRun base.id.length base).1 = none)
    (hc : (checkRun inc).1 = none)
    (hy : base.ref_year ≠ inc.ref_year) :
    appendRun base inc =
      (some .refYearMismatch,
        { base with
            tag := tagAppend base.tag inc.tag,
            deductible := (checkDefaultsRun base.id.length base).2.deductible,
            cover := (checkDefaultsRun base.id.length base).2.cover }) := by
  obtain ⟨hft, hfr, hfu, hfco, hfv, hfi, hfid, hfcat, hfreg, hfass⟩ :=
    checkDefaultsRun_frame base.id.length base
  obtain ⟨hgt, hgr, hgu, hgco, hgv, hgi, hgid, hgcat, hgreg, hgass⟩ :=
    checkRun_frame inc
  rcases hh : appendRun base inc with ⟨o, res⟩
  unfold appendRun at hh
  split at hh
  next er b1 heq => rw [heq] at hd; simp at hd
  next b1 heq =>
    simp only [heq] at hft hfr hfu hfco hfv hfi hfid hfcat hfreg hfass
    split at hh
    next er inc1 heq2 => rw [heq2] at hc; simp at hc
    next inc1 heq2 =>
      simp only [heq2] at hgt hgr hgu hgco hgv hgi hgid hgcat hgreg hgass
      split at hh
      next hzero =>
        rw [hfid] at hzero
        exact absurd (List.length_eq_zero.mp hzero) hne
      next hzero =>
        simp only [ne_eq] at hh
        split at hh
        next hy2 =>
          injection hh with hh1 hh2
          rw [← hh1, ← hh2]
          simp only [heq, Prod.mk.injEq]
          refine ⟨by trivial, ?_⟩
          apply Exposures.ext <;>
            simp [hft, hgt, hfr, hfu, hfco, hfv, hfi, hfid, hfcat, hfreg, hfass]
        next hy2 =>
          push_neg at hy2
          exact absurd ((hfr.symm.trans hy2).trans hgr) hy

/-- C1, witness: the amended statement evaluated on the concrete sets
`exA` and `exB`. -/
theorem C1_witness :
    appendRun exA exB =
      (some .refYearMismatch,
        { exA with
            tag := tagAppend exA.tag exB.tag,
            deductible := (checkDefaultsRun exA.id.length exA).2.deductible,
            cover := (checkDefaultsRun exA.id.length exA).2.cover }) :=
  C1_refyear_failure_mutations exA exB (by decide) (by decide) (by decide)
    (by decide)

/-- C3, counterexample: on a set with an empty deductible and a
wrong-length `category_id`, the source's `check()` fails before
backfilling the deductible, while the claimed order (backfill before the
optional-field step) would backfill it first — so `check()` does not
validate in the claimed order. -/
theorem C3_counterexample :
    checkRun exBadCat ≠ checkClaimedRun exBadCat ∧
    (checkRun exBadCat).1 = some .validation ∧
    (checkRun exBadCat).2.deductible = [] ∧
    (checkClaimedRun exBadCat).2.deductible = [0, 0] := by decide

/-- C3 (amended): `check()` validates in the order (1) id uniqueness
(fail fast, no mutation), (2) obligatory shapes (fail leaves the state
unchanged), then (4) optional-field checks/warnings (fail still leaves
the state unchanged, in particular no default has been backfilled yet),
and only then (3) the defaultable-field backfill — i.e. step (3) runs
AFTER step (4), contrary to the claim. -/
theorem C3_check_order (e : Exposures) :
    (uniqueSize e.id ≠ e.id.length → checkRun e = (some .validation, e)) ∧
    (uniqueSize e.id = e.id.length →
      ∀ er, checkObligatories e.id.length e = some er →
        checkRun e = (some er, e)) ∧
    (uniqueSize e.id = e.id.length → checkObligatories e.id.length e = none →
      ∀ er, checkOptionals e.id.length e = some er →
        checkRun e = (some er, e)) ∧
    (uniqueSize e.id = e.id.length → checkObligatories e.id.length e = none →
      checkOptionals e.id.length e = none →
      checkRun e = checkDefaultsRun e.id.length e) := by
  refine ⟨?_, ?_, ?_, ?_⟩
  · intro hu
    unfold checkRun
    simp [hu]
  · intro hu er ho
    unfold checkRun
    simp [hu, ho]
  · intro hu ho er hp
    unfold checkRun
    simp [hu, ho, hp]
  · intro hu ho hp
    unfold checkRun
    simp [hu, ho, hp]

/-- C3, witness: the amended order evaluated concretely — the optional
check aborts `check()` on `exBadCat` with no mutation, and duplicate ids
abort it immediately. -/
theorem C3_witness :
    checkRun exBadCat = (some .validation, exBadCat) ∧
    checkRun { exA with id := [0, 0] }
      = (some .validation, { exA with id := [0, 0] }) :=
  ⟨(C3_check_order exBadCat).2.2.1 (by decide) (by decide) .validation
      (by decide),
   (C3_check_order { exA with id := [0, 0] }).1 (by decide)⟩

/-- C4 (confirmed): appending a valid set `X` to an empty base (all
per-exposure arrays empty) succeeds and returns exactly `X` as validated
by `check()`, with `X`'s empty defaultable fields backfilled (deductible
to zeros, cover to `value`). -/
theorem C4_append_to_empty (base X : Exposures)
    (h1 : base.id = []) (h2 : base.deductible = []) (h3 : base.cover = [])
    (h4 : (checkRun X).1 = none) :
    appendRun base X = (none, (checkRun X).2) ∧
    (X.deductible = [] → (checkRun X).2.deductible = zerosQ X.id.length) ∧
    (X.cover = [] → (checkRun X).2.cover = X.value) := by
  obtain ⟨hu, ho, hp, hcrw, hcdn⟩ := checkRun_ok_cases X h4
  obtain ⟨hded, hcov, hdl, hcl⟩ := checkDefaultsRun_ok X.id.length X hcdn
  have hlen : base.id.length = 0 := by rw [h1]; rfl
  have hcd : checkDefaultsRun base.id.length base
      = (none, { base with deductible := [], cover := base.value }) := by
    unfold checkDefaultsRun
    simp [arrayDefault, h2, h3, hlen, zerosQ]
  refine ⟨?_, ?_, ?_⟩
  · rcases hh : appendRun base X with ⟨o, res⟩
    unfold appendRun at hh
    split at hh
    next er b1 heq =>
      rw [hcd] at heq
      injection heq with heq1 heq2
      simp at heq1
    next b1 heq =>
      rw [hcd] at heq
      injection heq with heq1 heq2
      split at hh
      next er inc1 heq3 => rw [heq3] at h4; simp at h4
      next inc1 heq3 =>
        split at hh
        next hzero =>
          injection hh with hh1 hh2
          rw [← hh1, ← hh2, heq3]
        next hzero =>
          rw [← heq2] at hzero
          simp [h1] at hzero
  · intro hX
    have h2d := congrArg Prod.snd hcrw
    rw [h2d, hded, if_pos hX]
  · intro hX
    have h2d := congrArg Prod.snd hcrw
    rw [h2d, hcov, if_pos hX]

/-- C4, witness: appending the valid set `exB` to the empty set yields
the validated `exB`. -/
theorem C4_witness :
    appendRun exEmpty exB = (none, (checkRun exB).2) :=
  (C4_append_to_empty exEmpty exB (by decide) (by decide) (by decide)
    (by decide)).1

/-- C9, counterexample: a base with an empty id array but a non-empty
deductible makes `append` fail (with a validation error from the
pre-merge default check) even though the incoming set passes validation
— so `append` does not succeed for every base with an empty id array. -/
theorem C9_counterexample :
    (checkRun exB).1 = none ∧
    (appendRun exEmptyDed exB).1 = some .validation := by decide

/-- C9 (amended): for every base whose id, deductible and cover arrays
are all empty and every incoming set that passes validation, append
succeeds — never raising the reference-year or value-unit merge errors
even when both differ — and the base's entire state (tag, ref_year and
value_unit included) is replaced wholesale by the validated incoming
state. -/
theorem C9_empty_base_replacement (base inc : Exposures)
    (h1 : base.id = []) (h2 : base.deductible = []) (h3 : base.cover = [])
    (h4 : (checkRun inc).1 = none)
    (h5 : base.ref_year ≠ inc.ref_year)
    (h6 : base.value_unit ≠ inc.value_unit) :
    (appendRun base inc).1 = none ∧
    (appendRun base inc).2 = (checkRun inc).2 ∧
    (appendRun base inc).2.tag = inc.tag ∧
    (appendRun base inc).2.ref_year = inc.ref_year ∧
    (appendRun base inc).2.value_unit = inc.value_unit := by
  obtain ⟨hgt, hgr, hgu, hgco, hgv, hgi, hgid, hgcat, hgreg, hgass⟩ :=
    checkRun_frame inc
  have hlen : base.id.length = 0 := by rw [h1]; rfl
  have hcd : checkDefaultsRun base.id.length base
      = (none, { base with deductible := [], cover := base.value }) := by
    unfold checkDefaultsRun
    simp [arrayDefault, h2, h3, hlen, zerosQ]
  have hmain : appendRun base inc = (none, (checkRun inc).2) := by
    rcases hh : appendRun base inc with ⟨o, res⟩
    unfold appendRun at hh
    split at hh
    next er b1 heq =>
      rw [hcd] at heq
      injection heq with heq1 heq2
      simp at heq1
    next b1 heq =>
      rw [hcd] at heq
      injection heq with heq1 heq2
      split at hh
      next er inc1 heq3 => rw [heq3] at h4; simp at h4
      next inc1 heq3 =>
        split at hh
        next hzero =>
          injection hh with hh1 hh2
          rw [← hh1, ← hh2, heq3]
        next hzero =>
          rw [← heq2] at hzero
          simp [h1] at hzero
  rw [hmain]
  exact ⟨rfl, rfl, hgt, hgr, hgu⟩

/-- C9, witness: the amended statement evaluated on the empty set and a
valid incoming set with a different reference year and value unit. -/
theorem C9_witness :
    (appendRun exEmpty { exB with value_unit := "EUR" }).1 = none ∧
    (appendRun exEmpty { exB with value_unit := "EUR" }).2
      = (checkRun { exB with value_unit := "EUR" }).2 ∧
    (appendRun exEmpty { exB with value_unit := "EUR" }).2.tag = exB.tag ∧
    (appendRun exEmpty { exB with value_unit := "EUR" }).2.ref_year = 2021 ∧
    (appendRun exEmpty { exB with value_unit := "EUR" }).2.value_unit
      = "EUR" :=
  C9_empty_base_replacement exEmpty { exB with value_unit := "EUR" }
    (by decide) (by decide) (by decide) (by decide) (by decide) (by decide)

/-- C5 (confirmed): in a merge of a non-empty base with an incoming set
(identical reference years, pre-merge checks passing), the value units
reconcile by cases: base unset and incoming set — adopt incoming's;
incoming unset — keep base's; both set and different — fail with the
unit merge error; both equal — unchanged. -/
theorem C5_unit_reconciliation (base inc : Exposures)
    (hne : base.id ≠ [])
    (hd : (checkDefaultsRun base.id.length base).1 = none)
    (hc : (checkRun inc).1 = none)
    (hy : base.ref_year = inc.ref_year) :
    ((base.value_unit = "NA" ∧ inc.value_unit ≠ "NA") →
      (appendRun base inc).1 = none ∧
      (appendRun base inc).2.value_unit = inc.value_unit) ∧
    (inc.value_unit = "NA" →
      (appendRun base inc).1 = none ∧
      (appendRun base inc).2.value_unit = base.value_unit) ∧
    ((base.value_unit ≠ "NA" ∧ inc.value_unit ≠ "NA" ∧
        base.value_unit ≠ inc.value_unit) →
      (appendRun base inc).1 = some .unitMismatch) ∧
    (base.value_unit = inc.value_unit →
      (appendRun base inc).1 = none ∧
      (appendRun base inc).2.value_unit = base.value_unit) := by
  obtain ⟨hno, hsome⟩ := appendRun_eval_unit base inc hd hc hne hy
  refine ⟨?_, ?_, ?_, ?_⟩
  · rintro ⟨hb, hi⟩
    have hru : reconcileUnit base.value_unit inc.value_unit
        = some inc.value_unit := by
      unfold reconcileUnit
      rw [if_pos ⟨hb, hi⟩]
    exact hsome _ hru
  · intro hi
    have hru : reconcileUnit base.value_unit inc.value_unit
        = some base.value_unit := by
      unfold reconcileUnit
      by_cases hb : base.value_unit = "NA" ∧ inc.value_unit ≠ "NA"
      · exact absurd hi hb.2
      · rw [if_neg hb, if_pos hi]
    exact hsome _ hru
  · rintro ⟨hb, hi, hbi⟩
    have hru : reconcileUnit base.value_unit inc.value_unit = none := by
      unfold reconcileUnit
      rw [if_neg (fun hcon => hb hcon.1), if_neg hi, if_pos hbi]
    exact hno hru
  · intro heq
    have hru : reconcileUnit base.value_unit inc.value_unit
        = some base.value_unit := by
      unfold reconcileUnit
      by_cases hb : base.value_unit = "NA" ∧ inc.value_unit ≠ "NA"
      · exact absurd (by rw [← heq]; exact hb.1) hb.2
      · rw [if_neg hb]
        by_cases hi : inc.value_unit = "NA"
        · rw [if_pos hi]
        · rw [if_neg hi, if_neg (not_not_intro heq)]
    exact hsome _ hru

/-- C5, witness: merging `exA` with `exB2020` (both in USD) succeeds
with the unit unchanged. -/
theorem C5_witness :
    (appendRun exA exB2020).1 = none ∧
    (appendRun exA exB2020).2.value_unit = "USD" := by
  have h := (C5_unit_reconciliation exA exB2020 (by decide) (by decide)
    (by decide) (by decide)).2.2.2 (by decide)
  exact ⟨h.1, h.2⟩

/-- C6 (confirmed): in a successful merge of a non-empty base,
`category_id` and `region_id` are concatenated (base first) exactly when
both sides are non-empty and become empty otherwise, and the merged
`assigned` mapping has the union of hazard-type keys: a key in both
sides gets the two arrays combined under the same both-non-empty rule, a
key in one side is carried over unchanged. -/
theorem C6_optional_merge (base inc merged : Exposures)
    (hne : base.id ≠ [])
    (hkeys : (inc.assigned.map Prod.fst).Nodup)
    (h : appendRun base inc = (none, merged)) :
    merged.category_id
      = (if base.category_id ≠ [] ∧ inc.category_id ≠ []
         then base.category_id ++ inc.category_id else []) ∧
    merged.region_id
      = (if base.region_id ≠ [] ∧ inc.region_id ≠ []
         then base.region_id ++ inc.region_id else []) ∧
    (∀ hz : String, merged.assigned.lookup hz =
      match base.assigned.lookup hz, inc.assigned.lookup hz with
      | none, none => none
      | some a, none => some a
      | none, some x => some x
      | some a, some x => some (appendOptional a x)) := by
  obtain ⟨-, -, -, -, -, -, -, -, -, hcat, hreg, hass, -, -⟩ :=
    appendRun_ok_fields base inc merged hne h
  refine ⟨?_, ?_, ?_⟩
  · rw [hcat]
    by_cases hbc : base.category_id = [] <;>
      by_cases hic : inc.category_id = [] <;>
        simp [appendOptional, hbc, hic, List.length_eq_zero]
  · rw [hreg]
    by_cases hbc : base.region_id = [] <;>
      by_cases hic : inc.region_id = [] <;>
        simp [appendOptional, hbc, hic, List.length_eq_zero]
  · intro hz
    rw [hass]
    exact lookup_mergeAssigned base.assigned inc.assigned hkeys hz

/-- C6, witness: merging a base carrying `assigned["TC"] = [1, 2]` and
empty `category_id` with `exC` (which carries `assigned["TC"] = [5]` and
empty `category_id`) drops `category_id` and concatenates the "TC"
entry. -/
theorem C6_witness :
    ((appendRun { exA with assigned := [("TC", [1, 2])] } exC).2).category_id
      = [] ∧
    (((appendRun { exA with assigned := [("TC", [1, 2])] } exC).2).assigned.lookup
      "TC") = some (appendOptional [1, 2] [5]) := by
  have h := C6_optional_merge { exA with assigned := [("TC", [1, 2])] } exC
    ((appendRun { exA with assigned := [("TC", [1, 2])] } exC).2)
    (by decide) (by decide) (by decide)
  refine ⟨?_, ?_⟩
  · rw [h.1]
    decide
  · rw [h.2.2 "TC"]
    decide

/-- C7 (confirmed): whenever `check()` returns without error, the
resulting deductible, cover, value and coord arrays all have the length
of the id array, with deductible backfilled to zeros and cover to
`value` when they were empty. -/
theorem C7_check_lengths (e e' : Exposures) (h : checkRun e = (none, e')) :
    e'.deductible.length = e'.id.length ∧
    e'.cover.length = e'.id.length ∧
    e'.value.length = e'.id.length ∧
    e'.coord.length = e'.id.length ∧
    (e.deductible = [] → e'.deductible = zerosQ e.id.length) ∧
    (e.cover = [] → e'.cover = e.value) := by
  have h1 : (checkRun e).1 = none := by rw [h]
  obtain ⟨hu, ho, hp, hcrw, hcdn⟩ := checkRun_ok_cases e h1
  obtain ⟨hval, himp, hcoord⟩ := checkObligatories_ok e.id.length e ho
  obtain ⟨hded, hcov, hdl, hcl⟩ := checkDefaultsRun_ok e.id.length e hcdn
  obtain ⟨hft, hfr, hfu, hfco, hfv, hfi, hfid, hfcat, hfreg, hfass⟩ :=
    checkDefaultsRun_frame e.id.length e
  have he' : e' = (checkDefaultsRun e.id.length e).2 := by
    rw [hcrw] at h
    exact (congrArg Prod.snd h).symm
  subst he'
  refine ⟨?_, ?_, ?_, ?_, ?_, ?_⟩
  · rw [hfid, hdl]
  · rw [hfid, hcl]
    by_cases hc0 : e.cover = []
    · rw [if_pos hc0, hval]
    · rw [if_neg hc0]
  · rw [hfid, hfv, hval]
  · rw [hfid, hfco, hcoord]
  · intro hX
    rw [hded, if_pos hX]
  · intro hX
    rw [hcov, if_pos hX]

/-- C7, witness: `check()` on `exA` (empty deductible) succeeds and
yields equal lengths with the deductible backfilled. -/
theorem C7_witness :
    ((checkRun exA).2).deductible.length = ((checkRun exA).2).id.length ∧
    ((checkRun exA).2).cover.length = ((checkRun exA).2).id.length ∧
    ((checkRun exA).2).value.length = ((checkRun exA).2).id.length ∧
    ((checkRun exA).2).coord.length = ((checkRun exA).2).id.length ∧
    (exA.deductible = [] →
      ((checkRun exA).2).deductible = zerosQ exA.id.length) ∧
    (exA.cover = [] → ((checkRun exA).2).cover = exA.value) :=
  C7_check_lengths exA (checkRun exA).2 (by decide)

/-- C2 (confirmed): in a successful merge of a non-empty validated base,
the merged id array is the concatenation (base first) renumbered: the
duplicate positions are exactly those whose value already occurred at a
smaller index, they are scanned in increasing index order and reassigned
`max(id)+1, max(id)+2, ...`, every other position (all of the base and
each first occurrence) keeps its value, disjoint id sets are left
entirely unchanged, and the result has no duplicate ids. -/
theorem C2_id_renumbering (base inc merged : Exposures)
    (hne : base.id ≠ []) (hb : base.id.Nodup)
    (h : appendRun base inc = (none, merged)) :
    merged.id = renumberIds (base.id ++ inc.id) ∧
    (dupPositions (base.id ++ inc.id)).Pairwise (· < ·) ∧
    (∀ i, i ∈ dupPositions (base.id ++ inc.id) ↔
      i < (base.id ++ inc.id).length ∧
        (base.id ++ inc.id).getD i 0 ∈ (base.id ++ inc.id).take i) ∧
    (∀ i, i < (base.id ++ inc.id).length →
      i ∉ dupPositions (base.id ++ inc.id) →
      merged.id.getD i 0 = (base.id ++ inc.id).getD i 0) ∧
    (∀ k, k < (dupPositions (base.id ++ inc.id)).length →
      merged.id.getD ((dupPositions (base.id ++ inc.id)).getD k 0) 0
        = (base.id ++ inc.id).maximum.getD 0 + 1 + k) ∧
    (∀ i, i < base.id.length → merged.id.getD i 0 = base.id.getD i 0) ∧
    ((∀ x ∈ base.id, x ∉ inc.id) → merged.id = base.id ++ inc.id) ∧
    merged.id.Nodup := by
  obtain ⟨hcd, hcc, -, hid, -, -, -, -, -, -, -, -, -, -⟩ :=
    appendRun_ok_fields base inc merged hne h
  have hinc : inc.id.Nodup :=
    (uniqueSize_eq_length_iff inc.id).mp (checkRun_ok_cases inc hcc).1
  refine ⟨hid, dupPositions_sorted _, fun i => dupPositions_spec _ i, ?_, ?_,
    ?_, ?_, ?_⟩
  · intro i hi hnd
    rw [hid]
    exact renumberIds_not_dup _ i hi hnd
  · intro k hk
    rw [hid]
    exact renumberIds_dup_val _ k hk
  · intro i hi
    have hnd : i ∉ dupPositions (base.id ++ inc.id) :=
      not_dup_of_append_left _ _ hb i hi
    have hil : i < (base.id ++ inc.id).length := by
      rw [List.length_append]
      omega
    rw [hid, renumberIds_not_dup _ i hil hnd, List.getD_append _ _ 0 i hi]
  · intro hdisj
    rw [hid,
      renumberIds_eq_self _ (dupPositions_disjoint_nil _ _ hb hinc hdisj)]
  · rw [hid]
    exact renumberIds_nodup _

/-- C2, witness: merging `exA` (ids 0, 1) with `exB2020` (id 1) gives
the renumbered unique id array [0, 1, 2]. -/
theorem C2_witness :
    ((appendRun exA exB2020).2).id = renumberIds (exA.id ++ exB2020.id) ∧
    ((appendRun exA exB2020).2).id = [0, 1, 2] ∧
    ((appendRun exA exB2020).2).id.Nodup := by
  have h := C2_id_renumbering exA exB2020 ((appendRun exA exB2020).2)
    (by decide) (by decide) (by decide)
  exact ⟨h.1, by decide, h.2.2.2.2.2.2.2⟩

/-- C8 (confirmed, spec-modelled): for every metric, every source point
and every non-empty target set, the index returned by `nearest_index`
attains the minimal distance and is the LOWEST index attaining it: any
equidistant target index is ≥ the returned one.  `nearestIndex` is a
pure function, so repeated calls agree definitionally. -/
theorem C8_nearest_ties (dist : (ℚ × ℚ) → (ℚ × ℚ) → ℚ)
    (source target : List (ℚ × ℚ)) (i : Nat)
    (hi : i < source.length) (hne : target ≠ []) :
    (nearestIndex dist source target).getD i 0 < target.length ∧
    (∀ j, j < target.length →
      dist (source.getD i (0, 0))
          (target.getD ((nearestIndex dist source target).getD i 0) (0, 0))
        ≤ dist (source.getD i (0, 0)) (target.getD j (0, 0))) ∧
    (∀ j, j < target.length →
      dist (source.getD i (0, 0)) (target.getD j (0, 0))
        = dist (source.getD i (0, 0))
            (target.getD ((nearestIndex dist source target).getD i 0) (0, 0)) →
      (nearestIndex dist source target).getD i 0 ≤ j) := by
  have hmap : (nearestIndex dist source target).getD i 0
      = nearestOne dist (source.getD i (0, 0)) target := by
    unfold nearestIndex
    have h1 : i < (source.map (fun p => nearestOne dist p target)).length := by
      simpa using hi
    rw [List.getD_eq_getElem _ _ h1, List.getElem_map]
    congr 1
    exact (List.getD_eq_getElem source (0, 0) hi).symm
  rw [hmap]
  obtain ⟨h1, h2, h3⟩ := nearestOne_spec dist (source.getD i (0, 0)) target hne
  refine ⟨h1, h2, ?_⟩
  intro j hj heq
  by_contra hlt
  push_neg at hlt
  exact absurd heq (ne_of_gt (h3 j hlt))

/-- C8, witness: the source point (0, 0) is equidistant (squared planar
distance 1) from both targets (0, 1) and (1, 0); the returned index is
the lower one, 0. -/
theorem C8_witness :
    (nearestIndex
        (fun p q => (p.1 - q.1) * (p.1 - q.1) + (p.2 - q.2) * (p.2 - q.2))
        [((0 : ℚ), (0 : ℚ))]
        [((0 : ℚ), (1 : ℚ)), ((1 : ℚ), (0 : ℚ))]).getD 0 0 ≤ 0 := by
  have h := C8_nearest_ties
    (fun p q => (p.1 - q.1) * (p.1 - q.1) + (p.2 - q.2) * (p.2 - q.2))
    [((0 : ℚ), (0 : ℚ))] [((0 : ℚ), (1 : ℚ)), ((1 : ℚ), (0 : ℚ))] 0
    (by decide) (by decide)
  refine h.2.2 0 (by decide) ?_
  have hr : (nearestIndex
      (fun p q => (p.1 - q.1) * (p.1 - q.1) + (p.2 - q.2) * (p.2 - q.2))
      [((0 : ℚ), (0 : ℚ))]
      [((0 : ℚ), (1 : ℚ)), ((1 : ℚ), (0 : ℚ))]).getD 0 0 = 0 := by
    have h0 : List.range 2 = [0, 1] := by decide
    simp only [nearestIndex, nearestOne, h0, argminAux, List.map_cons,
      List.map_nil, List.getD_cons_zero, List.getD_cons_succ,
      List.length_cons, List.length_nil]
    norm_num
  rw [hr]

/-- C10 (confirmed): both the Excel and the MAT obligatory readers set
the id array of a fresh Exposure Record Set to 0, 1, ..., N-1 in row
order (N the number of rows read), regardless of any identifiers present
in the file (neither reader consults a file identifier column). -/
theorem C10_reader_ids (e : Exposures) (rows : List XlsRow)
    (valArr latArr lonArr : List ℚ) (impArr : List Int)
    (hfresh : e.id = []) :
    (readXlsObligatory e rows).id = (List.range rows.length).map Int.ofNat ∧
    (readMatObligatory e valArr latArr lonArr impArr).id
      = (List.range valArr.length).map Int.ofNat := by
  constructor
  · unfold readXlsObligatory
    simp only [hfresh, List.length_nil, Nat.cast_zero, zero_add]
    exact npLinspaceInt_from_zero rows.length
  · unfold readMatObligatory
    simp only [hfresh, List.length_nil, Nat.cast_zero, zero_add]
    exact npLinspaceInt_from_zero valArr.length

/-- C10, witness: reading two rows into a fresh set assigns ids
[0, 1] in both readers. -/
theorem C10_witness :
    (readXlsObligatory exEmpty [⟨1, 2, 3, 4⟩, ⟨5, 6, 7, 8⟩]).id = [0, 1] ∧
    (readMatObligatory exEmpty [3, 7] [1, 5] [2, 6] [4, 8]).id = [0, 1] := by
  have h := C10_reader_ids exEmpty [⟨1, 2, 3, 4⟩, ⟨5, 6, 7, 8⟩] [3, 7] [1, 5]
    [2, 6] [4, 8] (by decide)
  refine ⟨?_, ?_⟩
  · rw [h.1]
    decide
  · rw [h.2]
    decide

end Climada
